import Mathlib

/-!
# Verification of the `rejoin_slice` crate

Shallow embedding of `src/lib.rs`: methods for joining two slices that are
adjacent in memory.  A Rust slice reference `&[T]` is modelled as a `View`:
a start address (in bytes) together with a length (in elements).  The element
type's size in bytes is passed explicitly as `es` (Rust's `size_of::<T>()`,
which is `0` for zero-sized types).  Slice/string contents live in an ambient
memory `m : Nat → α` read at element boundaries.

Panics (from slice indexing or `Option::expect`) are modelled with
`Except String`: `Except.error msg` is a panic carrying the panic message.
-/

set_option autoImplicit false

namespace RejoinSlice

/-- A Rust slice reference `&[T]` (or `&str`): a non-owning view given by its
start address `addr` (in bytes, the value of `as_ptr()`) and its length `len`
(in elements). -/
structure View where
  addr : Nat
  len : Nat
deriving DecidableEq

/-- Rust's `Index<RangeFrom<usize>>` on slices, `v[i..]` with element size
`es`: in bounds when `i ≤ v.len`, giving the subslice starting at byte address
`v.addr + i * es`; out of bounds (`i > v.len`) is a panic, modelled as
`none`. -/
def sliceIndexFrom (v : View) (i : Nat) (es : Nat) : Option View :=
  if i ≤ v.len then some ⟨v.addr + i * es, v.len - i⟩ else none

/-- `SliceExt::try_rejoin` for `[T]` with `size_of::<T>() = es`
(src/lib.rs:71-79): computes `self_end = self[self_len..].as_ptr()`, compares
it with `other.as_ptr()` by `core::ptr::eq`, and on success rebuilds
`from_raw_parts(self.as_ptr(), self.len() + other.len())`.  The `Except`
layer records the panic that slice indexing would raise were it out of
bounds. -/
def tryRejoin (es : Nat) (a b : View) : Except String (Option View) :=
  match sliceIndexFrom a a.len es with
  | none => Except.error "range start index out of range for slice"
  | some tail =>
    if tail.addr = b.addr then
      Except.ok (some ⟨a.addr, a.len + b.len⟩)
    else
      Except.ok none

/-- `SliceExt::try_rejoin_mut` for `[T]` with `size_of::<T>() = es`
(src/lib.rs:81-89): identical address computation with `as_mut_ptr` and
`from_raw_parts_mut`. -/
def tryRejoinMut (es : Nat) (a b : View) : Except String (Option View) :=
  match sliceIndexFrom a a.len es with
  | none => Except.error "range start index out of range for slice"
  | some tail =>
    if tail.addr = b.addr then
      Except.ok (some ⟨a.addr, a.len + b.len⟩)
    else
      Except.ok none

/-- Rust's `Option::expect(msg)`: the value inside `some`, or a panic with
message `msg`. -/
def expectMsg {α : Type} (o : Option α) (msg : String) : Except String α :=
  match o with
  | some v => Except.ok v
  | none => Except.error msg

/-- `SliceExt::rejoin` (src/lib.rs:63-65):
`self.try_rejoin(other).expect("the input slices must be adjacent in memory")`,
with a panic inside `try_rejoin` propagating. -/
def rejoin (es : Nat) (a b : View) : Except String View :=
  match tryRejoin es a b with
  | Except.error e => Except.error e
  | Except.ok o => expectMsg o "the input slices must be adjacent in memory"

/-- `SliceExt::rejoin_mut` (src/lib.rs:67-69):
`self.try_rejoin_mut(other).expect("the input slices must be adjacent in memory")`. -/
def rejoinMut (es : Nat) (a b : View) : Except String View :=
  match tryRejoinMut es a b with
  | Except.error e => Except.error e
  | Except.ok o => expectMsg o "the input slices must be adjacent in memory"

/-- `StrExt::try_rejoin` (src/lib.rs:108-110):
`self.as_bytes().try_rejoin(other.as_bytes()).map(|s| from_utf8_unchecked(s))`.
`as_bytes` leaves the view unchanged (a `&str` is a byte slice, element size
1), and `from_utf8_unchecked` is the identity on the view: no validation is
performed. -/
def strTryRejoin (a b : View) : Except String (Option View) :=
  match tryRejoin 1 a b with
  | Except.error e => Except.error e
  | Except.ok o => Except.ok (o.map (fun s => s))

/-- `StrExt::rejoin` (src/lib.rs:104-106):
`self.try_rejoin(other).expect("the input string slices must be adjacent in memory")`. -/
def strRejoin (a b : View) : Except String View :=
  match strTryRejoin a b with
  | Except.error e => Except.error e
  | Except.ok o => expectMsg o "the input string slices must be adjacent in memory"

/-- A call to `try_rejoin` together with the ambient memory it runs in: the
function only compares addresses (it never reads or writes through either
slice), so the run returns the unchanged memory as the post-state. -/
def runTryRejoin {α : Type} (m : Nat → α) (es : Nat) (a b : View) :
    Except String (Option View) × (Nat → α) :=
  (tryRejoin es a b, m)

/-- Reading element `i` of view `v` (element size `es`) from memory `m`:
the element stored at byte address `v.addr + i * es`. -/
def readElem {α : Type} (m : Nat → α) (es : Nat) (v : View) (i : Nat) : α :=
  m (v.addr + i * es)

/-- Writing element `i` of view `v` (element size `es`): memory updated at
byte address `v.addr + i * es`. -/
def writeElem {α : Type} (m : Nat → α) (es : Nat) (v : View) (i : Nat) (x : α) :
    Nat → α :=
  fun p => if p = v.addr + i * es then x else m p

/-- Rust's `split_at`/range slicing on a view: `v[..k]` and `v[k..]`
(meaningful for `k ≤ v.len`). -/
def splitAtView (es k : Nat) (v : View) : View × View :=
  (⟨v.addr, k⟩, ⟨v.addr + k * es, v.len - k⟩)

/-- The bytes of a byte-level view (element size 1) read from memory `m`. -/
def readBytes (m : Nat → Nat) (v : View) : List Nat :=
  (List.range v.len).map (fun i => m (v.addr + i))

/-- A UTF-8 continuation byte: `0x80 ≤ b ≤ 0xBF`.  Models the byte-level
well-formedness invariant of Rust's `str` (RFC 3629), which `str::try_rejoin`
relies on via `from_utf8_unchecked`. -/
def isCont (b : Nat) : Bool :=
  0x80 ≤ b && b ≤ 0xBF

/-- UTF-8 validity of a byte sequence per RFC 3629 (the invariant of Rust's
`str`): the shortest-form ranges used by `core::str::from_utf8`. -/
def utf8Valid : List Nat → Bool
  | [] => true
  | b :: t =>
    if b ≤ 0x7F then utf8Valid t
    else if 0xC2 ≤ b && b ≤ 0xDF then
      match t with
      | c1 :: t1 => isCont c1 && utf8Valid t1
      | [] => false
    else if b = 0xE0 then
      match t with
      | c1 :: c2 :: t2 => (0xA0 ≤ c1 && c1 ≤ 0xBF) && isCont c2 && utf8Valid t2
      | _ => false
    else if (0xE1 ≤ b && b ≤ 0xEC) || b = 0xEE || b = 0xEF then
      match t with
      | c1 :: c2 :: t2 => isCont c1 && isCont c2 && utf8Valid t2
      | _ => false
    else if b = 0xED then
      match t with
      | c1 :: c2 :: t2 => (0x80 ≤ c1 && c1 ≤ 0x9F) && isCont c2 && utf8Valid t2
      | _ => false
    else if b = 0xF0 then
      match t with
      | c1 :: c2 :: c3 :: t3 =>
        (0x90 ≤ c1 && c1 ≤ 0xBF) && isCont c2 && isCont c3 && utf8Valid t3
      | _ => false
    else if 0xF1 ≤ b && b ≤ 0xF3 then
      match t with
      | c1 :: c2 :: c3 :: t3 => isCont c1 && isCont c2 && isCont c3 && utf8Valid t3
      | _ => false
    else if b = 0xF4 then
      match t with
      | c1 :: c2 :: c3 :: t3 =>
        (0x80 ≤ c1 && c1 ≤ 0x8F) && isCont c2 && isCont c3 && utf8Valid t3
      | _ => false
    else false

/-- Rust's `str::is_char_boundary(k)` on a string view `v` over memory `m`:
`k` is `0`, the length, or points at a non-continuation byte. -/
def isCharBoundary (m : Nat → Nat) (v : View) (k : Nat) : Bool :=
  k = 0 || k = v.len || (decide (k < v.len) && !(isCont (m (v.addr + k))))

/-- Closed form of `tryRejoin`: the adjacency test
`address(a) + length(a) * element_size = address(b)` decides the result. -/
theorem tryRejoin_eq (es : Nat) (a b : View) :
    tryRejoin es a b =
      if a.addr + a.len * es = b.addr then
        Except.ok (some ⟨a.addr, a.len + b.len⟩)
      else Except.ok none := by
  unfold tryRejoin sliceIndexFrom
  simp

/-- Closed form of `tryRejoinMut`, identical to that of `tryRejoin`. -/
theorem tryRejoinMut_eq (es : Nat) (a b : View) :
    tryRejoinMut es a b =
      if a.addr + a.len * es = b.addr then
        Except.ok (some ⟨a.addr, a.len + b.len⟩)
      else Except.ok none := by
  unfold tryRejoinMut sliceIndexFrom
  simp

/-- The string variant is the byte-level join: `from_utf8_unchecked` leaves
the view untouched. -/
theorem strTryRejoin_eq_byte (a b : View) : strTryRejoin a b = tryRejoin 1 a b := by
  unfold strTryRejoin
  cases h : tryRejoin 1 a b with
  | error e => rfl
  | ok o => cases o <;> rfl

end RejoinSlice

namespace RejoinSlice

/-- C1: `try_rejoin(a, b)` returns `Some` exactly when
`address(a) + length(a) * element_size = address(b)`; on success the result is
the view with start `address(a)` and length `length(a) + length(b)`; on
failure the result is `None`, the memory is unchanged, and repeating the call
on the same non-adjacent inputs yields `None` again. -/
theorem try_rejoin_some_iff_adjacent {α : Type} (es : Nat) (a b : View)
    (m : Nat → α) :
    ((∃ v, tryRejoin es a b = Except.ok (some v)) ↔
      a.addr + a.len * es = b.addr) ∧
    (a.addr + a.len * es = b.addr →
      tryRejoin es a b = Except.ok (some ⟨a.addr, a.len + b.len⟩)) ∧
    (a.addr + a.len * es ≠ b.addr →
      tryRejoin es a b = Except.ok none ∧
      (runTryRejoin m es a b).2 = m ∧
      (runTryRejoin (runTryRejoin m es a b).2 es a b).1 = Except.ok none) := by
  rw [tryRejoin_eq]
  by_cases h : a.addr + a.len * es = b.addr
  · simp [h, runTryRejoin, tryRejoin_eq]
  · simp [h, runTryRejoin, tryRejoin_eq]

/-- Witness for C1 at concrete non-adjacent inputs. -/
theorem try_rejoin_some_iff_adjacent_witness :
    tryRejoin 1 ⟨0, 3⟩ ⟨4, 3⟩ = Except.ok none ∧
    (runTryRejoin (fun p => p) 1 ⟨0, 3⟩ ⟨4, 3⟩).2 = (fun p : Nat => p) ∧
    (runTryRejoin (runTryRejoin (fun p => p) 1 ⟨0, 3⟩ ⟨4, 3⟩).2 1
        ⟨0, 3⟩ ⟨4, 3⟩).1 = Except.ok none :=
  (try_rejoin_some_iff_adjacent 1 ⟨0, 3⟩ ⟨4, 3⟩ (fun p => p)).2.2 (by decide)

/-- C2: splitting a buffer `[0, N)` at any `k ≤ N` into `[0, k)` and `[k, N)`
and rejoining (fallibly or not) gives back a view with the original address
and length. -/
theorem split_rejoin_round_trip (es base N k : Nat) (h : k ≤ N) :
    tryRejoin es (splitAtView es k ⟨base, N⟩).1 (splitAtView es k ⟨base, N⟩).2
      = Except.ok (some ⟨base, N⟩) ∧
    rejoin es (splitAtView es k ⟨base, N⟩).1 (splitAtView es k ⟨base, N⟩).2
      = Except.ok ⟨base, N⟩ := by
  have hN : k + (N - k) = N := Nat.add_sub_cancel' h
  constructor
  · rw [splitAtView, tryRejoin_eq]
    simp [hN]
  · rw [rejoin, splitAtView, tryRejoin_eq]
    simp [hN, expectMsg]

/-- Witness for C2 at a concrete buffer and split point. -/
theorem split_rejoin_round_trip_witness :
    tryRejoin 1 (splitAtView 1 3 ⟨0, 7⟩).1 (splitAtView 1 3 ⟨0, 7⟩).2
      = Except.ok (some ⟨0, 7⟩) ∧
    rejoin 1 (splitAtView 1 3 ⟨0, 7⟩).1 (splitAtView 1 3 ⟨0, 7⟩).2
      = Except.ok ⟨0, 7⟩ :=
  split_rejoin_round_trip 1 0 7 3 (by decide)

/-- C3: whenever `try_rejoin(a, b)` returns a joined view, indexing it at `i`
reads the element `a` holds at `i` when `i < length(a)` and the element `b`
holds at `i - length(a)` otherwise; and the joined view reads exactly like
the full buffer `⟨address(a), length(a) + length(b)⟩`. -/
theorem rejoin_content_preservation {α : Type} (m : Nat → α) (es : Nat)
    (a b j : View) (hj : tryRejoin es a b = Except.ok (some j)) (i : Nat) :
    (i < a.len → readElem m es j i = readElem m es a i) ∧
    (a.len ≤ i → readElem m es j i = readElem m es b (i - a.len)) ∧
    readElem m es j i = readElem m es ⟨a.addr, a.len + b.len⟩ i := by
  rw [tryRejoin_eq] at hj
  by_cases h : a.addr + a.len * es = b.addr
  · rw [if_pos h] at hj
    have hjv : j = ⟨a.addr, a.len + b.len⟩ := by
      cases hj
      rfl
    subst hjv
    refine ⟨fun _ => rfl, fun hi => ?_, rfl⟩
    show m (a.addr + i * es) = m (b.addr + (i - a.len) * es)
    have : b.addr + (i - a.len) * es = a.addr + i * es := by
      rw [← h, Nat.add_assoc, ← Nat.add_mul, Nat.add_sub_cancel' hi]
    rw [this]
  · rw [if_neg h] at hj
    cases hj

/-- Witness for C3 at a concrete adjacent pair and index. -/
theorem rejoin_content_preservation_witness :
    (5 < 3 → readElem (fun p => p) 1 ⟨0, 7⟩ 5 = readElem (fun p => p) 1 ⟨0, 3⟩ 5) ∧
    (3 ≤ 5 → readElem (fun p => p) 1 ⟨0, 7⟩ 5 = readElem (fun p => p) 1 ⟨3, 4⟩ (5 - 3)) ∧
    readElem (fun p => p) 1 ⟨0, 7⟩ 5 = readElem (fun p => p) 1 ⟨0, 7⟩ 5 :=
  rejoin_content_preservation (fun p => p) 1 ⟨0, 3⟩ ⟨3, 4⟩ ⟨0, 7⟩ rfl 5

/-- C4: on adjacent inputs the panicking forms `rejoin`, `rejoin_mut` and the
string `rejoin` return the same joined view as their fallible counterparts;
on non-adjacent inputs they panic with a descriptive message and never return
a view. -/
theorem panicking_forms_agree_with_fallible (es : Nat) (a b : View) :
    (a.addr + a.len * es = b.addr →
      tryRejoin es a b = Except.ok (some ⟨a.addr, a.len + b.len⟩) ∧
      rejoin es a b = Except.ok ⟨a.addr, a.len + b.len⟩ ∧
      rejoinMut es a b = Except.ok ⟨a.addr, a.len + b.len⟩) ∧
    (a.addr + a.len * es ≠ b.addr →
      rejoin es a b = Except.error "the input slices must be adjacent in memory" ∧
      rejoinMut es a b = Except.error "the input slices must be adjacent in memory" ∧
      ∀ v, rejoin es a b ≠ Except.ok v ∧ rejoinMut es a b ≠ Except.ok v) ∧
    (a.addr + a.len = b.addr →
      strTryRejoin a b = Except.ok (some ⟨a.addr, a.len + b.len⟩) ∧
      strRejoin a b = Except.ok ⟨a.addr, a.len + b.len⟩) ∧
    (a.addr + a.len ≠ b.addr →
      strRejoin a b = Except.error "the input string slices must be adjacent in memory" ∧
      ∀ v, strRejoin a b ≠ Except.ok v) := by
  refine ⟨fun h => ?_, fun h => ?_, fun h => ?_, fun h => ?_⟩
  · rw [rejoin, rejoinMut, tryRejoin_eq, tryRejoinMut_eq]
    simp [h, expectMsg]
  · rw [rejoin, rejoinMut, tryRejoin_eq, tryRejoinMut_eq]
    simp [h, expectMsg]
  · have h1 : a.addr + a.len * 1 = b.addr := by simpa using h
    rw [strRejoin, strTryRejoin_eq_byte, tryRejoin_eq]
    simp [h, h1, expectMsg]
  · have h1 : a.addr + a.len * 1 ≠ b.addr := by simpa using h
    rw [strRejoin, strTryRejoin_eq_byte, tryRejoin_eq]
    simp [h, h1, expectMsg]

/-- Witness for C4: concrete adjacent and non-adjacent pairs. -/
theorem panicking_forms_agree_with_fallible_witness :
    (tryRejoin 1 ⟨0, 3⟩ ⟨3, 4⟩ = Except.ok (some ⟨0, 7⟩) ∧
      rejoin 1 ⟨0, 3⟩ ⟨3, 4⟩ = Except.ok ⟨0, 7⟩ ∧
      rejoinMut 1 ⟨0, 3⟩ ⟨3, 4⟩ = Except.ok ⟨0, 7⟩) ∧
    (rejoin 1 ⟨0, 3⟩ ⟨4, 3⟩ = Except.error "the input slices must be adjacent in memory" ∧
      rejoinMut 1 ⟨0, 3⟩ ⟨4, 3⟩ = Except.error "the input slices must be adjacent in memory" ∧
      ∀ v, rejoin 1 ⟨0, 3⟩ ⟨4, 3⟩ ≠ Except.ok v ∧
        rejoinMut 1 ⟨0, 3⟩ ⟨4, 3⟩ ≠ Except.ok v) :=
  ⟨(panicking_forms_agree_with_fallible 1 ⟨0, 3⟩ ⟨3, 4⟩).1 (by decide),
    ((panicking_forms_agree_with_fallible 1 ⟨0, 3⟩ ⟨4, 3⟩).2.1 (by decide))⟩

/-- C5: `try_rejoin_mut` succeeds exactly as `try_rejoin` does (the two
computations are equal view for view), and after a successful mutable join,
writing through the joined view at position `i` and reading the full buffer
`⟨address(a), length(a) + length(b)⟩` at position `i` yields the written
value. -/
theorem try_rejoin_mut_refines_try_rejoin {α : Type} (es : Nat) (a b : View)
    (m : Nat → α) (i : Nat) (x : α) :
    tryRejoinMut es a b = tryRejoin es a b ∧
    (∀ j, tryRejoinMut es a b = Except.ok (some j) →
      j.addr = a.addr ∧ j.len = a.len + b.len ∧
      readElem (writeElem m es j i x) es ⟨a.addr, a.len + b.len⟩ i = x) := by
  refine ⟨rfl, fun j hj => ?_⟩
  rw [tryRejoinMut_eq] at hj
  by_cases h : a.addr + a.len * es = b.addr
  · rw [if_pos h] at hj
    have hjv : j = ⟨a.addr, a.len + b.len⟩ := by
      cases hj
      rfl
    subst hjv
    exact ⟨rfl, rfl, by simp [readElem, writeElem]⟩
  · rw [if_neg h] at hj
    cases hj

/-- Witness for C5 at a concrete adjacent pair, write position and value. -/
theorem try_rejoin_mut_refines_try_rejoin_witness :
    tryRejoinMut 1 ⟨0, 3⟩ ⟨3, 4⟩ = tryRejoin 1 ⟨0, 3⟩ ⟨3, 4⟩ ∧
    (∀ j, tryRejoinMut 1 ⟨0, 3⟩ ⟨3, 4⟩ = Except.ok (some j) →
      j.addr = 0 ∧ j.len = 3 + 4 ∧
      readElem (writeElem (fun p => p) 1 j 5 42) 1 ⟨0, 3 + 4⟩ 5 = 42) :=
  try_rejoin_mut_refines_try_rejoin 1 ⟨0, 3⟩ ⟨3, 4⟩ (fun p => p) 5 42

/-- C6: splitting a valid UTF-8 string view `⟨base, n⟩` at a char boundary
`k` and calling the string `try_rejoin` on the two halves returns the
original span; any span it returns reads as valid UTF-8; and the string
variant is exactly the byte-level join, with no re-validation. -/
theorem str_try_rejoin_preserves_utf8 (m : Nat → Nat) (base n k : Nat)
    (hk : k ≤ n) (hb : isCharBoundary m ⟨base, n⟩ k = true)
    (hv : utf8Valid (readBytes m ⟨base, n⟩) = true) :
    strTryRejoin ⟨base, k⟩ ⟨base + k, n - k⟩ = Except.ok (some ⟨base, n⟩) ∧
    (∀ j, strTryRejoin ⟨base, k⟩ ⟨base + k, n - k⟩ = Except.ok (some j) →
      utf8Valid (readBytes m j) = true) ∧
    (∀ a b : View, strTryRejoin a b = tryRejoin 1 a b) := by
  have hjoin : strTryRejoin ⟨base, k⟩ ⟨base + k, n - k⟩
      = Except.ok (some ⟨base, n⟩) := by
    rw [strTryRejoin_eq_byte, tryRejoin_eq]
    simp [Nat.add_sub_cancel' hk]
  refine ⟨hjoin, fun j hj => ?_, strTryRejoin_eq_byte⟩
  rw [hjoin] at hj
  have hjv : j = ⟨base, n⟩ := by
    cases hj
    rfl
  rw [hjv]
  exact hv

/-- Memory holding the UTF-8 bytes of the concrete string "éa"
(`0xC3 0xA9 0x61`), used by the witness for C6. -/
def utf8WitnessMem : Nat → Nat :=
  fun p => if p = 0 then 0xC3 else if p = 1 then 0xA9 else 0x61

/-- Witness for C6: the string "éa" split at the char boundary 2. -/
theorem str_try_rejoin_preserves_utf8_witness :
    strTryRejoin ⟨0, 2⟩ ⟨0 + 2, 3 - 2⟩ = Except.ok (some ⟨0, 3⟩) ∧
    (∀ j, strTryRejoin ⟨0, 2⟩ ⟨0 + 2, 3 - 2⟩ = Except.ok (some j) →
      utf8Valid (readBytes utf8WitnessMem j) = true) ∧
    (∀ a b : View, strTryRejoin a b = tryRejoin 1 a b) :=
  str_try_rejoin_preserves_utf8 utf8WitnessMem 0 3 2 (by decide)
    (by decide) (by decide)

/-- C7: on a 7-element buffer, joining `[0, 3)` with `[4, 7)` (a one-element
gap) returns `None` and panics in the `rejoin` form; joining `[3, 7)` with
`[0, 3)` (reversed memory order) likewise fails; joining `[0, 3)` with
`[3, 7)` succeeds. -/
theorem gap_and_reversed_order_fail (es base : Nat) (hes : 0 < es) :
    tryRejoin es ⟨base, 3⟩ ⟨base + 4 * es, 3⟩ = Except.ok none ∧
    rejoin es ⟨base, 3⟩ ⟨base + 4 * es, 3⟩ =
      Except.error "the input slices must be adjacent in memory" ∧
    tryRejoin es ⟨base + 3 * es, 4⟩ ⟨base, 3⟩ = Except.ok none ∧
    rejoin es ⟨base + 3 * es, 4⟩ ⟨base, 3⟩ =
      Except.error "the input slices must be adjacent in memory" ∧
    tryRejoin es ⟨base, 3⟩ ⟨base + 3 * es, 4⟩ = Except.ok (some ⟨base, 7⟩) := by
  have hgap : base + 3 * es ≠ base + 4 * es := by omega
  have hrev : base + 3 * es + 4 * es ≠ base := by omega
  refine ⟨?_, ?_, ?_, ?_, ?_⟩
  · rw [tryRejoin_eq]
    simp [hgap]
  · rw [rejoin, tryRejoin_eq]
    simp [hgap, expectMsg]
  · rw [tryRejoin_eq]
    simp [hrev]
  · rw [rejoin, tryRejoin_eq]
    simp [hrev, expectMsg]
  · rw [tryRejoin_eq]
    simp

/-- Witness for C7 at element size 1 and base address 0. -/
theorem gap_and_reversed_order_fail_witness :
    tryRejoin 1 ⟨0, 3⟩ ⟨0 + 4 * 1, 3⟩ = Except.ok none ∧
    rejoin 1 ⟨0, 3⟩ ⟨0 + 4 * 1, 3⟩ =
      Except.error "the input slices must be adjacent in memory" ∧
    tryRejoin 1 ⟨0 + 3 * 1, 4⟩ ⟨0, 3⟩ = Except.ok none ∧
    rejoin 1 ⟨0 + 3 * 1, 4⟩ ⟨0, 3⟩ =
      Except.error "the input slices must be adjacent in memory" ∧
    tryRejoin 1 ⟨0, 3⟩ ⟨0 + 3 * 1, 4⟩ = Except.ok (some ⟨0, 7⟩) :=
  gap_and_reversed_order_fail 1 0 (by decide)

/-- C8 counterexample: with a zero-sized element type
(`size_of::<T>() = 0`, e.g. `T = ()` in Rust), a non-empty view joined with
itself succeeds: `try_rejoin(a, a)` returns a doubled view, not `None`. -/
theorem self_join_zero_size_counterexample :
    0 < (⟨0, 1⟩ : View).len ∧
    tryRejoin 0 ⟨0, 1⟩ ⟨0, 1⟩ = Except.ok (some ⟨0, 2⟩) :=
  ⟨by decide, rfl⟩

/-- C8 (amended): for element types of nonzero size, two zero-length views at
different addresses are never adjacent, a zero-length view is adjacent to
itself, and a non-empty view is never adjacent to itself; for zero-sized
element types, `try_rejoin(a, a)` succeeds for any length, doubling it. -/
theorem self_join_only_when_degenerate (es p q n : Nat) (hes : 0 < es) :
    (p ≠ q → tryRejoin es ⟨p, 0⟩ ⟨q, 0⟩ = Except.ok none) ∧
    tryRejoin es ⟨p, 0⟩ ⟨p, 0⟩ = Except.ok (some ⟨p, 0⟩) ∧
    (0 < n → tryRejoin es ⟨p, n⟩ ⟨p, n⟩ = Except.ok none) ∧
    tryRejoin 0 ⟨p, n⟩ ⟨p, n⟩ = Except.ok (some ⟨p, n + n⟩) := by
  refine ⟨fun hpq => ?_, ?_, fun hn => ?_, ?_⟩
  · rw [tryRejoin_eq]
    simp [hpq]
  · rw [tryRejoin_eq]
    simp
  · have hne : p + n * es ≠ p := by
      have := Nat.mul_pos hn hes
      omega
    rw [tryRejoin_eq]
    simp [hne]
  · rw [tryRejoin_eq]
    simp

/-- Witness for C8 (amended) at concrete addresses and lengths. -/
theorem self_join_only_when_degenerate_witness :
    tryRejoin 1 ⟨0, 0⟩ ⟨5, 0⟩ = Except.ok none ∧
    tryRejoin 1 ⟨0, 0⟩ ⟨0, 0⟩ = Except.ok (some ⟨0, 0⟩) ∧
    tryRejoin 1 ⟨0, 2⟩ ⟨0, 2⟩ = Except.ok none ∧
    tryRejoin 0 ⟨0, 2⟩ ⟨0, 2⟩ = Except.ok (some ⟨0, 2 + 2⟩) :=
  have h := self_join_only_when_degenerate 1 0 5 2 (by decide)
  ⟨h.1 (by decide), h.2.1, h.2.2.1 (by decide), h.2.2.2⟩

/-- C9: the one-past-end computation `a[length(a)..]` inside `try_rejoin` and
`try_rejoin_mut` is always in bounds, so the fallible operations are total:
on every pair of inputs they return `ok` (`Some` or `None`) and never
panic. -/
theorem try_rejoin_total_no_panic (es : Nat) (a b : View) :
    (sliceIndexFrom a a.len es).isSome = true ∧
    (∃ r, tryRejoin es a b = Except.ok r) ∧
    (∃ r, tryRejoinMut es a b = Except.ok r) := by
  refine ⟨by simp [sliceIndexFrom], ?_, ?_⟩
  · rw [tryRejoin_eq]
    by_cases h : a.addr + a.len * es = b.addr
    · exact ⟨some ⟨a.addr, a.len + b.len⟩, by simp [h]⟩
    · exact ⟨none, by simp [h]⟩
  · rw [tryRejoinMut_eq]
    by_cases h : a.addr + a.len * es = b.addr
    · exact ⟨some ⟨a.addr, a.len + b.len⟩, by simp [h]⟩
    · exact ⟨none, by simp [h]⟩

/-- C10: the outcome of `try_rejoin` depends only on the addresses and
lengths of the two views, never on the stored contents: two runs over
memories with arbitrarily different contents, on views with the same
addresses and lengths, return the same result. -/
theorem try_rejoin_ignores_contents {α β : Type} (es : Nat)
    (a b a2 b2 : View) (m1 : Nat → α) (m2 : Nat → β)
    (ha : a.addr = a2.addr) (hla : a.len = a2.len)
    (hb : b.addr = b2.addr) (hlb : b.len = b2.len) :
    (runTryRejoin m1 es a b).1 = (runTryRejoin m2 es a2 b2).1 := by
  cases a with
  | mk aa al =>
    cases b with
    | mk ba bl =>
      cases a2 with
      | mk aa2 al2 =>
        cases b2 with
        | mk ba2 bl2 =>
          simp only at ha hla hb hlb
          subst ha
          subst hla
          subst hb
          subst hlb
          rfl

/-- Witness for C10 on two memories with different contents. -/
theorem try_rejoin_ignores_contents_witness :
    (runTryRejoin (fun p => p) 1 ⟨0, 3⟩ ⟨3, 4⟩).1 =
      (runTryRejoin (fun p => p + 100) 1 ⟨0, 3⟩ ⟨3, 4⟩).1 :=
  try_rejoin_ignores_contents 1 ⟨0, 3⟩ ⟨3, 4⟩ ⟨0, 3⟩ ⟨3, 4⟩
    (fun p => p) (fun p => p + 100) rfl rfl rfl rfl

end RejoinSlice

